import Mathlib

/-!
Verification of `modulegraph2/reportbuilder.py` (report-building / presentation layer).

The Python module is shallowly embedded: pure helper functions become Lean
functions, Python `dict`s become association lists manipulated through
`dictInsert` / `dictUpdate` / `dictGetD` (which reproduce Python dict
assignment, `dict.update` and `dict.get` semantics on insertion-ordered
key/value lists), and effectful methods return explicit records of the
events they perform (stderr lines, graph operations, invoked subprocess
command lines).
-/

set_option autoImplicit false

/-- A value stored in a Graphviz attribute dict (`Union[str, int]` in the source). -/
inductive AttrValue where
  | str (s : String)
  | int (n : Int)
deriving DecidableEq, Repr

/-- An attribute dict: insertion-ordered association list, unique keys. -/
abbrev Attrs := List (String × AttrValue)

/-- Python dict assignment `d[k] = v`: replace the value if the key is present,
otherwise append the pair at the end (insertion order preserved). -/
def dictInsert (d : Attrs) (k : String) (v : AttrValue) : Attrs :=
  if d.any (fun p => p.1 = k) then
    d.map (fun p => if p.1 = k then (k, v) else p)
  else d ++ [(k, v)]

/-- Python `d.update(o)`: assign every pair of `o` into `d`, in order. -/
def dictUpdate (d : Attrs) (o : Attrs) : Attrs :=
  o.foldl (fun acc p => dictInsert acc p.1 p.2) d

/-- Python `d.get(k, dflt)` on an insertion-ordered dict literal. -/
def dictGetD (d : List (String × Attrs)) (k : String) (dflt : Attrs) : Attrs :=
  match d with
  | [] => dflt
  | (a, v) :: rest => if a = k then v else dictGetD rest k dflt

/-- A packaging distribution (`node.distribution`); only its name is read here. -/
structure Distribution where
  name : String
deriving DecidableEq, Repr

/-- A graph node (`modulegraph2._nodes.BaseNode`) as seen by this layer:
its dotted identifier, the name of its concrete class (`type(node).__name__`),
and an optional owning distribution. -/
structure BaseNode where
  identifier : String
  kindName : String
  distribution : Option Distribution
deriving DecidableEq, Repr

/-- One recorded dependency fact (`modulegraph2._depinfo.DependencyInfo`);
only `is_optional` is read by this layer. -/
structure DependencyInfo where
  is_optional : Bool
deriving DecidableEq, Repr

/-- An element yielded by `graph.iter_graph()`: either a genuine `BaseNode`
or some other object (the graph may yield non-node entries; `group_nodes`
type-checks each one). The payload of `other` is never inspected. -/
inductive GraphEntry where
  | node (n : BaseNode)
  | other (tag : Nat)
deriving DecidableEq, Repr

/-- The dependency graph (`modulegraph2._modulegraph.ModuleGraph`) as consumed
here: its roots and the sequence yielded by `iter_graph()`. -/
structure ModuleGraph where
  roots : List BaseNode
  iter_graph : List GraphEntry
deriving DecidableEq, Repr

/-- The `NODE_ATTR` table of `reportbuilder.py`: Graphviz attributes per node
class name. -/
def NODE_ATTR : List (String × Attrs) :=
  [("Script", [("shape", .str "note")]),
   ("Package", [("shape", .str "folder")]),
   ("SourceModule", [("shape", .str "rectangle")]),
   ("BytecodeModule", [("shape", .str "rectangle")]),
   ("ExtensionModule", [("shape", .str "parallelogram")]),
   ("BuiltinModule", [("shape", .str "hexagon")]),
   ("MissingModule", [("shape", .str "rectangle"), ("color", .str "red")])]

/-- `format_node` from `reportbuilder.py`:
```
results = {}
if node in mg.roots():
    results["penwidth"] = 2
    results["root"] = "true"
results.update(NODE_ATTR.get(type(node).__name__, {}))
return results
``` -/
def format_node (node : BaseNode) (mg : ModuleGraph) : Attrs :=
  let results : Attrs := []
  let results :=
    if node ∈ mg.roots then
      dictInsert (dictInsert results "penwidth" (.int 2)) "root" (.str "true")
    else results
  dictUpdate results (dictGetD NODE_ATTR node.kindName [])

/-- `format_edge` from `reportbuilder.py`:
```
results = {}
if all(e.is_optional for e in edge):
    results["style"] = "dashed"
if source.identifier.startswith(target.identifier + "."):
    results["weight"] = 10
    results["arrowhead"] = "none"
return results
``` -/
def format_edge (source target : BaseNode) (edge : List DependencyInfo) : Attrs :=
  let results : Attrs := []
  let results :=
    if edge.all (fun e => e.is_optional) then
      dictInsert results "style" (.str "dashed")
    else results
  let results :=
    if (target.identifier ++ ".").isPrefixOf source.identifier then
      dictInsert (dictInsert results "weight" (.int 10)) "arrowhead" (.str "none")
    else results
  results

/-- Spec-side restatement of the node-formatting rules: the union of the root
attributes (present iff the node is a root) and the fixed shape attributes of
the node's kind from the seven-entry table. -/
def format_node_spec (node : BaseNode) (mg : ModuleGraph) : Attrs :=
  (if node ∈ mg.roots then [("penwidth", .int 2), ("root", .str "true")] else [])
    ++ dictGetD NODE_ATTR node.kindName []

/-- Spec-side restatement of the edge-formatting rules: de-emphasis attribute
iff every fact is optional, containment attributes iff the target's dotted
identifier plus a dot is a prefix of the source's identifier; nothing else. -/
def format_edge_spec (source target : BaseNode) (edge : List DependencyInfo) : Attrs :=
  (if edge.all (fun e => e.is_optional) then [("style", .str "dashed")] else [])
    ++ (if (target.identifier ++ ".").isPrefixOf source.identifier then
          [("weight", .int 10), ("arrowhead", .str "none")]
        else [])

lemma dictInsert_fresh (d : Attrs) (k : String) (v : AttrValue)
    (h : ∀ p ∈ d, p.1 ≠ k) : dictInsert d k v = d ++ [(k, v)] := by
  unfold dictInsert
  rw [if_neg]
  simp only [List.any_eq_true, not_exists, decide_eq_true_eq, not_and]
  intro p hp
  exact h p hp

lemma dictUpdate_disjoint (d : Attrs) : ∀ o : Attrs,
    (∀ p ∈ o, ∀ q ∈ d, q.1 ≠ p.1) → (o.map Prod.fst).Nodup →
    dictUpdate d o = d ++ o := by
  intro o
  induction o generalizing d with
  | nil => intro _ _; simp [dictUpdate]
  | cons p rest ih =>
    intro hdisj hnd
    have hnd1 : (p.1 :: rest.map Prod.fst).Nodup := by simpa using hnd
    have hp1 : p.1 ∉ rest.map Prod.fst := (List.nodup_cons.1 hnd1).1
    have hnd' : (rest.map Prod.fst).Nodup := (List.nodup_cons.1 hnd1).2
    have h1 : dictInsert d p.1 p.2 = d ++ [p] := by
      have h := dictInsert_fresh d p.1 p.2
        (fun q hq => hdisj p (List.mem_cons_self p rest) q hq)
      simpa using h
    have hdisj' : ∀ p' ∈ rest, ∀ q ∈ d ++ [p], q.1 ≠ p'.1 := by
      intro p' hp' q hq
      rcases List.mem_append.1 hq with hq | hq
      · exact hdisj p' (List.mem_cons_of_mem p hp') q hq
      · have hq' : q = p := by simpa using hq
        subst hq'
        intro hc
        exact hp1 (hc ▸ List.mem_map_of_mem Prod.fst hp')
    have h2 : dictUpdate (d ++ [p]) rest = (d ++ [p]) ++ rest := ih (d ++ [p]) hdisj' hnd'
    calc dictUpdate d (p :: rest) = dictUpdate (dictInsert d p.1 p.2) rest := rfl
      _ = dictUpdate (d ++ [p]) rest := by rw [h1]
      _ = (d ++ [p]) ++ rest := h2
      _ = d ++ p :: rest := by simp

lemma dictGetD_NODE_ATTR_cases (k : String) :
    dictGetD NODE_ATTR k [] = [("shape", AttrValue.str "note")]
    ∨ dictGetD NODE_ATTR k [] = [("shape", AttrValue.str "folder")]
    ∨ dictGetD NODE_ATTR k [] = [("shape", AttrValue.str "rectangle")]
    ∨ dictGetD NODE_ATTR k [] = [("shape", AttrValue.str "parallelogram")]
    ∨ dictGetD NODE_ATTR k [] = [("shape", AttrValue.str "hexagon")]
    ∨ dictGetD NODE_ATTR k []
        = [("shape", AttrValue.str "rectangle"), ("color", AttrValue.str "red")]
    ∨ dictGetD NODE_ATTR k [] = [] := by
  simp only [NODE_ATTR, dictGetD]
  split_ifs <;> simp

lemma dictGetD_NODE_ATTR_keys (k : String) :
    ∀ p ∈ dictGetD NODE_ATTR k [], p.1 = "shape" ∨ p.1 = "color" := by
  rcases dictGetD_NODE_ATTR_cases k with h | h | h | h | h | h | h <;> rw [h] <;>
    simp [List.forall_mem_cons]

lemma dictGetD_NODE_ATTR_nodup (k : String) :
    ((dictGetD NODE_ATTR k []).map Prod.fst).Nodup := by
  rcases dictGetD_NODE_ATTR_cases k with h | h | h | h | h | h | h <;> rw [h] <;> decide

/-- Claim C1: `format_node` returns exactly the union of the root attributes
(penwidth 2 and the root marker, present iff the node is in `mg.roots()`) and
the fixed shape attributes for the node's kind from the seven-entry
`NODE_ATTR` table (MissingModule additionally carrying the red alert color, as
recorded in the table); a node of an unregistered kind contributes no shape
attributes and causes no error. -/
theorem format_node_matches_spec (node : BaseNode) (mg : ModuleGraph) :
    format_node node mg = format_node_spec node mg
    ∧ ((("penwidth", AttrValue.int 2) ∈ format_node node mg
          ∧ ("root", AttrValue.str "true") ∈ format_node node mg) ↔ node ∈ mg.roots)
    ∧ (dictGetD NODE_ATTR node.kindName [] = [] →
        format_node node mg
          = if node ∈ mg.roots then
              [("penwidth", AttrValue.int 2), ("root", AttrValue.str "true")]
            else []) := by
  have hmain : format_node node mg = format_node_spec node mg := by
    unfold format_node format_node_spec
    by_cases hr : node ∈ mg.roots
    · simp only [hr, if_pos, if_true]
      have hroot : dictInsert (dictInsert ([] : Attrs) "penwidth" (.int 2)) "root" (.str "true")
          = [("penwidth", AttrValue.int 2), ("root", AttrValue.str "true")] := by
        simp [dictInsert]
      rw [hroot]
      refine dictUpdate_disjoint _ _ ?_ (dictGetD_NODE_ATTR_nodup _)
      intro p hp q hq
      rcases dictGetD_NODE_ATTR_keys node.kindName p hp with h | h <;>
        rcases (by simpa using hq : q = ("penwidth", AttrValue.int 2)
            ∨ q = ("root", AttrValue.str "true")) with rfl | rfl <;> simp [h]
    · simp only [hr, if_neg, if_false]
      have := dictUpdate_disjoint ([] : Attrs) (dictGetD NODE_ATTR node.kindName [])
        (by intro p _ q hq; simp at hq) (dictGetD_NODE_ATTR_nodup _)
      simpa using this
  refine ⟨hmain, ?_, ?_⟩
  · rw [hmain]
    unfold format_node_spec
    constructor
    · rintro ⟨h1, -⟩
      by_contra hr
      rw [if_neg hr] at h1
      simp only [List.nil_append] at h1
      rcases dictGetD_NODE_ATTR_keys node.kindName _ h1 with h | h <;> simp at h
    · intro hr
      rw [if_pos hr]
      simp
  · intro hz
    rw [hmain]
    unfold format_node_spec
    rw [hz]
    by_cases hr : node ∈ mg.roots <;> simp [hr]

/-- Claim C2: `format_edge` returns the dashed de-emphasis attribute iff every
fact in the edge set is optional (vacuously so for an empty set, without
error), and the containment attributes (weight 10, no arrowhead) iff the
target's identifier followed by a dot is a prefix of the source's identifier;
the two groups are additive on disjoint keys and nothing else is ever in the
result. -/
theorem format_edge_matches_spec (source target : BaseNode)
    (edge : List DependencyInfo) :
    format_edge source target edge = format_edge_spec source target edge
    ∧ ((("style", AttrValue.str "dashed") ∈ format_edge source target edge)
        ↔ ∀ e ∈ edge, e.is_optional = true)
    ∧ ((("arrowhead", AttrValue.str "none") ∈ format_edge source target edge)
        ↔ (target.identifier ++ ".").isPrefixOf source.identifier = true) := by
  have hmain : format_edge source target edge = format_edge_spec source target edge := by
    unfold format_edge format_edge_spec
    by_cases h1 : edge.all (fun e => e.is_optional) <;>
      by_cases h2 : (target.identifier ++ ".").isPrefixOf source.identifier <;>
        simp [h1, h2, dictInsert]
  refine ⟨hmain, ?_, ?_⟩ <;> rw [hmain] <;> unfold format_edge_spec
  · by_cases h1 : edge.all (fun e => e.is_optional) <;>
      by_cases h2 : (target.identifier ++ ".").isPrefixOf source.identifier <;>
        simp_all [List.all_eq_true]
  · by_cases h1 : edge.all (fun e => e.is_optional) <;>
      by_cases h2 : (target.identifier ++ ".").isPrefixOf source.identifier <;>
        simp_all

/-- A cluster triple `(groupname, shape, nodes)` yielded by `group_nodes`. -/
abbrev ClusterGroup := String × String × List BaseNode

/-- The body of the `group_nodes` loop for a node carrying distribution name
`dist`, acting on the insertion-ordered `clusters` dict:
```
if dist not in clusters:
    clusters[dist] = (dist, "tab", [])
clusters[dist][-1].append(node)
``` -/
def addToCluster : List ClusterGroup → String → BaseNode → List ClusterGroup
  | [], dist, node => [(dist, "tab", [node])]
  | (d, s, ns) :: rest, dist, node =>
    if d = dist then (d, s, ns ++ [node]) :: rest
    else (d, s, ns) :: addToCluster rest dist node

/-- The `for node in graph.iter_graph()` loop of `group_nodes`: non-`BaseNode`
entries and nodes without a distribution are skipped, all other nodes are
appended to their distribution's cluster. -/
def group_nodes_go : List ClusterGroup → List GraphEntry → List ClusterGroup
  | clusters, [] => clusters
  | clusters, GraphEntry.node n :: rest =>
    (match n.distribution with
     | some d => group_nodes_go (addToCluster clusters d.name n) rest
     | none => group_nodes_go clusters rest)
  | clusters, GraphEntry.other _ :: rest => group_nodes_go clusters rest

/-- `group_nodes` from `reportbuilder.py` (`iter(clusters.values())` of the
insertion-ordered dict built by the loop). -/
def group_nodes (graph : ModuleGraph) : List ClusterGroup :=
  group_nodes_go [] graph.iter_graph

/-- Spec-side helper: distribution names of clustered nodes, in first-occurrence
order of the graph's node sequence. -/
def distNames_go : List String → List GraphEntry → List String
  | acc, [] => acc
  | acc, GraphEntry.node n :: rest =>
    (match n.distribution with
     | some d => distNames_go (if d.name ∈ acc then acc else acc ++ [d.name]) rest
     | none => distNames_go acc rest)
  | acc, GraphEntry.other _ :: rest => distNames_go acc rest

/-- Spec-side helper: first-occurrence-ordered distribution names. -/
def distNamesInOrder (entries : List GraphEntry) : List String :=
  distNames_go [] entries

/-- Spec-side helper: the genuine nodes carrying distribution name `dist`, in
sequence order. -/
def nodesWithDist : List GraphEntry → String → List BaseNode
  | [], _ => []
  | GraphEntry.node n :: rest, dist =>
    (match n.distribution with
     | some d => if d.name = dist then [n] else []
     | none => []) ++ nodesWithDist rest dist
  | GraphEntry.other _ :: rest, dist => nodesWithDist rest dist

/-- Spec-side restatement of the clusterer: one group per distribution name in
first-occurrence order, each with the fixed "tab" style tag and exactly the
nodes of that distribution in sequence order. -/
def group_nodes_spec (graph : ModuleGraph) : List ClusterGroup :=
  (distNamesInOrder graph.iter_graph).map
    (fun d => (d, "tab", nodesWithDist graph.iter_graph d))

@[simp] lemma group_nodes_go_nil (c : List ClusterGroup) : group_nodes_go c [] = c := rfl

lemma group_nodes_go_cons_node (c : List ClusterGroup) (n : BaseNode) (rest : List GraphEntry) :
    group_nodes_go c (GraphEntry.node n :: rest)
      = (match n.distribution with
         | some d => group_nodes_go (addToCluster c d.name n) rest
         | none => group_nodes_go c rest) := rfl

@[simp] lemma group_nodes_go_cons_other (c : List ClusterGroup) (t : Nat)
    (rest : List GraphEntry) :
    group_nodes_go c (GraphEntry.other t :: rest) = group_nodes_go c rest := rfl

@[simp] lemma distNames_go_nil (acc : List String) : distNames_go acc [] = acc := rfl

lemma distNames_go_cons_node (acc : List String) (n : BaseNode) (rest : List GraphEntry) :
    distNames_go acc (GraphEntry.node n :: rest)
      = (match n.distribution with
         | some d => distNames_go (if d.name ∈ acc then acc else acc ++ [d.name]) rest
         | none => distNames_go acc rest) := rfl

@[simp] lemma distNames_go_cons_other (acc : List String) (t : Nat) (rest : List GraphEntry) :
    distNames_go acc (GraphEntry.other t :: rest) = distNames_go acc rest := rfl

@[simp] lemma nodesWithDist_nil (dist : String) : nodesWithDist [] dist = [] := rfl

lemma nodesWithDist_cons_node (n : BaseNode) (rest : List GraphEntry) (dist : String) :
    nodesWithDist (GraphEntry.node n :: rest) dist
      = (match n.distribution with
         | some d => if d.name = dist then [n] else []
         | none => []) ++ nodesWithDist rest dist := rfl

@[simp] lemma nodesWithDist_cons_other (t : Nat) (rest : List GraphEntry) (dist : String) :
    nodesWithDist (GraphEntry.other t :: rest) dist = nodesWithDist rest dist := rfl

lemma group_nodes_go_cons_node_some (c : List ClusterGroup) (n : BaseNode)
    (rest : List GraphEntry) (dd : Distribution) (hd : n.distribution = some dd) :
    group_nodes_go c (GraphEntry.node n :: rest)
      = group_nodes_go (addToCluster c dd.name n) rest := by
  rw [group_nodes_go_cons_node, hd]

lemma group_nodes_go_cons_node_none (c : List ClusterGroup) (n : BaseNode)
    (rest : List GraphEntry) (hd : n.distribution = none) :
    group_nodes_go c (GraphEntry.node n :: rest) = group_nodes_go c rest := by
  rw [group_nodes_go_cons_node, hd]

lemma distNames_go_cons_node_some (acc : List String) (n : BaseNode)
    (rest : List GraphEntry) (dd : Distribution) (hd : n.distribution = some dd) :
    distNames_go acc (GraphEntry.node n :: rest)
      = distNames_go (if dd.name ∈ acc then acc else acc ++ [dd.name]) rest := by
  rw [distNames_go_cons_node, hd]

lemma distNames_go_cons_node_none (acc : List String) (n : BaseNode)
    (rest : List GraphEntry) (hd : n.distribution = none) :
    distNames_go acc (GraphEntry.node n :: rest) = distNames_go acc rest := by
  rw [distNames_go_cons_node, hd]

lemma nodesWithDist_cons_node_some (n : BaseNode) (rest : List GraphEntry)
    (dd : Distribution) (hd : n.distribution = some dd) (dist : String) :
    nodesWithDist (GraphEntry.node n :: rest) dist
      = (if dd.name = dist then [n] else []) ++ nodesWithDist rest dist := by
  rw [nodesWithDist_cons_node, hd]

lemma nodesWithDist_cons_node_none (n : BaseNode) (rest : List GraphEntry)
    (hd : n.distribution = none) (dist : String) :
    nodesWithDist (GraphEntry.node n :: rest) dist = nodesWithDist rest dist := by
  rw [nodesWithDist_cons_node, hd]
  simp

lemma addToCluster_mem (n : BaseNode) (dn : String) :
    ∀ (names : List String) (f : String → List BaseNode), names.Nodup → dn ∈ names →
    addToCluster (names.map (fun d => (d, "tab", f d))) dn n
      = names.map (fun d => (d, "tab", f d ++ if dn = d then [n] else [])) := by
  intro names
  induction names with
  | nil => intro f _ h; simp at h
  | cons a rest ih =>
    intro f hnd hmem
    by_cases ha : a = dn
    · subst ha
      have ha2 : a ∉ rest := (List.nodup_cons.1 hnd).1
      have htail : List.map (fun d => (d, "tab", f d ++ if a = d then [n] else [])) rest
          = List.map (fun d => (d, "tab", f d)) rest := by
        apply List.map_congr_left
        intro d hdmem
        have hne : ¬a = d := fun h => ha2 (h ▸ hdmem)
        simp [hne]
      simp [addToCluster, htail]
    · have hmem' : dn ∈ rest := by
        rcases List.mem_cons.1 hmem with h | h
        · exact absurd h.symm ha
        · exact h
      have hdn : ¬dn = a := fun h => ha h.symm
      simp only [List.map_cons, addToCluster, if_neg ha]
      rw [ih f (List.nodup_cons.1 hnd).2 hmem']
      simp [hdn]

lemma addToCluster_fresh (n : BaseNode) (dn : String) :
    ∀ (names : List String) (f : String → List BaseNode), dn ∉ names →
    addToCluster (names.map (fun d => (d, "tab", f d))) dn n
      = names.map (fun d => (d, "tab", f d)) ++ [(dn, "tab", [n])] := by
  intro names
  induction names with
  | nil => intro f _; rfl
  | cons a rest ih =>
    intro f hmem
    have ha : a ≠ dn := fun h => hmem (by simp [h])
    have hmem' : dn ∉ rest := fun h => hmem (List.mem_cons_of_mem a h)
    simp only [List.map_cons, addToCluster, if_neg ha, List.cons_append]
    rw [ih f hmem']

lemma group_go_spec : ∀ (rest : List GraphEntry) (names : List String)
    (f : String → List BaseNode), names.Nodup → (∀ d, d ∉ names → f d = []) →
    group_nodes_go (names.map (fun d => (d, "tab", f d))) rest
      = (distNames_go names rest).map (fun d => (d, "tab", f d ++ nodesWithDist rest d)) := by
  intro rest
  induction rest with
  | nil => intro names f _ _; simp
  | cons e rest ih =>
    intro names f hnd hf
    cases e with
    | other t => simpa using ih names f hnd hf
    | node n =>
      cases hd : n.distribution with
      | none =>
        rw [group_nodes_go_cons_node_none _ _ _ hd, distNames_go_cons_node_none _ _ _ hd]
        simp only [nodesWithDist_cons_node_none n rest hd]
        exact ih names f hnd hf
      | some dd =>
        rw [group_nodes_go_cons_node_some _ _ _ _ hd, distNames_go_cons_node_some _ _ _ _ hd]
        simp only [nodesWithDist_cons_node_some n rest dd hd]
        by_cases hc : dd.name ∈ names
        · rw [if_pos hc, addToCluster_mem n dd.name names f hnd hc]
          have hgf : ∀ d, d ∉ names → (f d ++ if dd.name = d then [n] else []) = [] := by
            intro d hdn
            have hne : ¬dd.name = d := fun h => hdn (h ▸ hc)
            simp [hne, hf d hdn]
          rw [ih names (fun d => f d ++ if dd.name = d then [n] else []) hnd hgf]
          simp only [List.append_assoc]
        · rw [if_neg hc, addToCluster_fresh n dd.name names f hc]
          have hmapeq : names.map (fun d => (d, "tab", f d)) ++ [(dd.name, "tab", [n])]
              = (names ++ [dd.name]).map
                  (fun d => (d, "tab", if dd.name = d then [n] else f d)) := by
            rw [List.map_append]
            congr 1
            · symm
              apply List.map_congr_left
              intro d hdmem
              have hne : ¬dd.name = d := fun h => hc (h ▸ hdmem)
              simp [hne]
            · simp
          rw [hmapeq]
          have hnd2 : (names ++ [dd.name]).Nodup := by
            have h := List.Nodup.concat hc hnd
            simpa [List.concat_eq_append] using h
          have hgf : ∀ d, d ∉ names ++ [dd.name] →
              (if dd.name = d then [n] else f d) = [] := by
            intro d hdn
            have h1 : d ∉ names := fun h => hdn (List.mem_append.2 (Or.inl h))
            have h2 : ¬dd.name = d := fun h => hdn (List.mem_append.2 (Or.inr (by simp [h])))
            simp [h2, hf d h1]
          rw [ih (names ++ [dd.name]) (fun d => if dd.name = d then [n] else f d) hnd2 hgf]
          have hfun : ∀ d, (if dd.name = d then [n] else f d) ++ nodesWithDist rest d
              = f d ++ ((if dd.name = d then [n] else []) ++ nodesWithDist rest d) := by
            intro d
            by_cases h : dd.name = d
            · subst h
              simp [hf dd.name hc]
            · simp [h]
          simp only [hfun]

/-- Claim C3: `group_nodes` returns exactly one group per distribution name, in
first-occurrence order of the graph's node sequence; each group carries the
fixed "tab" style tag and contains exactly the nodes bearing that distribution
name, in sequence order; nodes without a distribution appear in no group. -/
theorem group_nodes_matches_spec (graph : ModuleGraph) :
    group_nodes graph = group_nodes_spec graph := by
  have h := group_go_spec graph.iter_graph [] (fun _ => []) List.nodup_nil (fun _ _ => rfl)
  simpa [group_nodes, group_nodes_spec, distNamesInOrder] using h

/-- The `isinstance(node, BaseNode)` test performed by `group_nodes`. -/
def GraphEntry.isNode : GraphEntry → Bool
  | .node _ => true
  | .other _ => false

/-- Replace the payload of every non-node entry; genuine nodes are untouched.
Used to state that `group_nodes` never inspects non-node entries. -/
def retagOther (f : Nat → Nat) : GraphEntry → GraphEntry
  | .node n => .node n
  | .other t => .other (f t)

lemma group_nodes_go_filter (entries : List GraphEntry) :
    ∀ c, group_nodes_go c (entries.filter GraphEntry.isNode) = group_nodes_go c entries := by
  induction entries with
  | nil => intro c; rfl
  | cons e rest ih =>
    intro c
    cases e with
    | node n =>
      rw [List.filter_cons_of_pos (by rfl)]
      rw [group_nodes_go_cons_node, group_nodes_go_cons_node]
      cases n.distribution <;> simp [ih]
    | other t =>
      rw [List.filter_cons_of_neg (by simp [GraphEntry.isNode])]
      simp [ih]

lemma group_nodes_go_retag (f : Nat → Nat) (entries : List GraphEntry) :
    ∀ c, group_nodes_go c (entries.map (retagOther f)) = group_nodes_go c entries := by
  induction entries with
  | nil => intro c; rfl
  | cons e rest ih =>
    intro c
    cases e with
    | node n =>
      simp only [List.map_cons, retagOther]
      rw [group_nodes_go_cons_node, group_nodes_go_cons_node]
      cases n.distribution <;> simp [ih]
    | other t =>
      simp only [List.map_cons, retagOther]
      simp [ih]

/-- Claim C10: `group_nodes` silently skips entries of the node sequence that
are not graph nodes: the result equals clustering the subsequence of genuine
nodes, and it never depends on (never reads) the non-node entries themselves,
so no returned group can contain such an entry and no error is raised. -/
theorem group_nodes_skips_non_nodes (roots : List BaseNode)
    (entries : List GraphEntry) (f : Nat → Nat) :
    group_nodes ⟨roots, entries⟩ = group_nodes ⟨roots, entries.filter GraphEntry.isNode⟩
    ∧ group_nodes ⟨roots, entries.map (retagOther f)⟩ = group_nodes ⟨roots, entries⟩ := by
  constructor
  · exact (group_nodes_go_filter entries []).symm
  · exact group_nodes_go_retag f entries []

/-- Python-level failures observable from this layer. -/
inductive PyError where
  | typeError (msg : String)
  | osError (msg : String)
  | assertionError
deriving DecidableEq, Repr

/-- Which serializer `print_graph` invoked. -/
inductive SerializerCall where
  | toHtml
  | toDot
deriving DecidableEq, Repr

/-- An operation invoked on the freshly created `ModuleGraph` by `make_graph`. -/
inductive GraphOp where
  | addExcludes (names : List String)
  | addModule (name : String)
  | addScript (path : String)
  | addDistribution (name : String)
deriving DecidableEq, Repr

/-- The configuration state held by a `ReportBuilder` instance after `__init__`. -/
structure ReportBuilder where
  output_file : Option String
  output_format : String
  modules : List String
  scripts : List String
  distributions : List String
  excludes : List String
  paths : List String
  exclude_stdlib : Bool
deriving DecidableEq, Repr

/-- `ReportBuilder.__init__`. Absent (`None`) list arguments become `[]` (the
`modules or []` idiom); `stdlibNames` stands for the value returned by
`stdlib_module_names()` (from `modulegraph2._utilities`, a collaborator of
this layer), which `__init__` appends to the exclusion list when
`exclude_stdlib` is set:
```
self.excludes = excludes or []
...
if self.exclude_stdlib:
    self.excludes.extend(stdlib_module_names())
``` -/
def ReportBuilder.init (output_file : Option String) (output_format : String)
    (modules scripts distributions excludes paths : Option (List String))
    (exclude_stdlib : Bool) (stdlibNames : List String) : ReportBuilder :=
  let excludes0 := excludes.getD []
  { output_file := output_file
    output_format := output_format
    modules := modules.getD []
    scripts := scripts.getD []
    distributions := distributions.getD []
    excludes := if exclude_stdlib then excludes0 ++ stdlibNames else excludes0
    paths := paths.getD []
    exclude_stdlib := exclude_stdlib }

/-- The path-prepending loop of `make_graph`:
`for p in self.paths[::-1]: sys.path.insert(0, p)`. -/
def insertLoop (paths : List String) (sp : List String) : List String :=
  paths.reverse.foldl (fun acc p => p :: acc) sp

/-- The graph operations `make_graph` performs, in source order: the excludes
registration first, then module, script and distribution additions. -/
def plannedOps (rb : ReportBuilder) : List GraphOp :=
  GraphOp.addExcludes rb.excludes ::
    (rb.modules.map GraphOp.addModule ++ rb.scripts.map GraphOp.addScript
      ++ rb.distributions.map GraphOp.addDistribution)

/-- Fault oracle for graph population (the add-operations are delegated to the
external engine and may raise): `some k` means the operation after the first
`k` raises; `none` means population succeeds. Returns the operations actually
performed and the error, if any. -/
def runOps (ops : List GraphOp) (failAfter : Option Nat) :
    List GraphOp × Option PyError :=
  match failAfter with
  | none => (ops, none)
  | some k =>
    if k < ops.length then (ops.take k, some (.osError "population failed"))
    else (ops, none)

/-- Modelled from the spec: `saved_sys_path` (defined in
`modulegraph2/_utilities.py`, which is not under `src/`) is a context manager
that records the ambient `sys.path` on entry and restores the recorded value
on every exit path, including exceptional ones (scoped acquisition/release
discipline; restored even on failure). Running a body under
`with saved_sys_path():` therefore yields the entry path as the final ambient
path, whatever path the body produced and whether or not it raised. -/
def saved_sys_path (body : List String → List String × List GraphOp × Option PyError)
    (sp : List String) : List String × List GraphOp × Option PyError :=
  let r := body sp
  (sp, r.2.1, r.2.2)

/-- The body of the `with` block in `ReportBuilder.make_graph`: prepend the
configured paths one at a time in reversed order, then create the fresh graph
and run the population operations (which may fail partway, per the oracle).
Returns the ambient path as population observes it, the operations performed,
and the error if any. -/
def make_graph_body (rb : ReportBuilder) (failAfter : Option Nat)
    (sp : List String) : List String × List GraphOp × Option PyError :=
  let sp2 := insertLoop rb.paths sp
  let r := runOps (plannedOps rb) failAfter
  (sp2, r.1, r.2)

/-- `ReportBuilder.make_graph`: the body run under `saved_sys_path`. The first
component is the ambient `sys.path` after the call returns. -/
def make_graph (rb : ReportBuilder) (failAfter : Option Nat) (sp : List String) :
    List String × List GraphOp × Option PyError :=
  saved_sys_path (make_graph_body rb failAfter) sp

/-- `ReportBuilder.print_graph`: dispatch on the configured output format;
`"html"` runs `export_to_html`, `"dot"` runs `export_to_dot` (with
`format_node`, `format_edge` and `group_nodes` as callbacks), anything else
raises `AssertionError("Invalid OutputFormat")`. The returned list records the
serializer invocations. -/
def print_graph (rb : ReportBuilder) : Except PyError (List SerializerCall) :=
  if rb.output_format = "html" then Except.ok [SerializerCall.toHtml]
  else if rb.output_format = "dot" then Except.ok [SerializerCall.toDot]
  else Except.error PyError.assertionError

/-- Number of positional arguments `print_graph` accepts besides `self`
(its signature is `def print_graph(self, file)`). -/
def print_graph_paramcount : Nat := 1

/-- Number of positional arguments passed to `print_graph` at the
standard-output call site of `output_graph`
(`self.print_graph(sys.stdout, self.output_format, self.mg)`). -/
def stdout_call_argcount : Nat := 3

/-- The destination file system as seen by `output_graph`: `some msg` means
opening or writing the destination raises an `OSError` whose description is
`msg`. -/
structure World where
  openError : Option String
deriving DecidableEq, Repr

/-- What a run of `output_graph` did. -/
inductive Outcome where
  | wroteStdout (calls : List SerializerCall)
  | wroteFile (path : String) (calls : List SerializerCall)
  | exited (code : Nat)
  | raised (e : PyError)
deriving DecidableEq, Repr

/-- The observable result of `output_graph`: error-stream lines and outcome. -/
structure RunResult where
  stderr : List String
  outcome : Outcome
deriving DecidableEq, Repr

/-- `ReportBuilder.output_graph`. With no destination file it executes
`self.print_graph(sys.stdout, self.output_format, self.mg)`; since
`print_graph` accepts one positional argument beyond `self` and three are
passed, Python raises `TypeError` at that call, before anything is written.
With a destination file it opens the file and serializes into it; an `OSError`
from opening or writing is printed to stderr and converted to
`SystemExit(1)`; any other exception (such as the `AssertionError` from an
invalid format) propagates unhandled. -/
def output_graph (rb : ReportBuilder) (w : World) : RunResult :=
  match rb.output_file with
  | none =>
    if stdout_call_argcount = print_graph_paramcount then
      match print_graph rb with
      | .ok calls => { stderr := [], outcome := .wroteStdout calls }
      | .error e => { stderr := [], outcome := .raised e }
    else
      { stderr := [],
        outcome := .raised (.typeError
          "print_graph() takes 2 positional arguments but 4 were given") }
  | some path =>
    match w.openError with
    | some msg => { stderr := [msg], outcome := .exited 1 }
    | none =>
      match print_graph rb with
      | .ok calls => { stderr := [], outcome := .wroteFile path calls }
      | .error e => { stderr := [], outcome := .raised e }

/-- Index of the last occurrence of `c` in `l`, if any (`str.rfind`). -/
def rfindIdx (c : Char) : List Char → Option Nat
  | [] => none
  | x :: xs =>
    match rfindIdx c xs with
    | some i => some (i + 1)
    | none => if x = c then some 0 else none

/-- The root part of `os.path.splitext(p)` (POSIX rules): strip the trailing
extension beginning at the last dot of the last path component, unless that
component consists only of dots up to there (leading-dot names keep their
name). -/
def splitext_root (p : String) : String :=
  let l := p.data
  let start :=
    match rfindIdx '/' l with
    | some i => i + 1
    | none => 0
  match rfindIdx '.' l with
  | some d =>
    if start ≤ d then
      if ((l.drop start).take (d - start)).any (fun ch => ch ≠ '.') then
        String.mk (l.take d)
      else p
    else p
  | none => p

/-- The legal render formats asserted by `render_graph`. -/
def legal_render_formats : List String :=
  ["html", "ps", "pdf", "png", "gif", "jpg", "json", "svg"]

/-- `ReportBuilder.render_graph`: assert the requested format is legal, then,
only when the configured output format is `"dot"` and a truthy (non-`None`,
non-empty) output file is configured, invoke the layout engine through
`os.system` on the command line built from the layout name, `-T` plus the
format, `-o` plus the render path (the output file with its extension replaced
by the format) and the output file. Returns the invoked command line, if any. -/
def render_graph (rb : ReportBuilder) (layout fmt : String) :
    Except PyError (Option String) :=
  if fmt ∈ legal_render_formats then
    match rb.output_file with
    | some f =>
      if rb.output_format = "dot" ∧ f ≠ "" then
        Except.ok (some (layout ++ " -T" ++ fmt ++ " -o "
          ++ (splitext_root f ++ "." ++ fmt) ++ " " ++ f))
      else Except.ok none
    | none => Except.ok none
  else Except.error PyError.assertionError

lemma insertLoop_eq (paths : List String) : ∀ sp, insertLoop paths sp = paths ++ sp := by
  induction paths with
  | nil => intro sp; rfl
  | cons x xs ih =>
    intro sp
    have h : insertLoop (x :: xs) sp = x :: insertLoop xs sp := by
      unfold insertLoop
      rw [List.reverse_cons, List.foldl_append]
      rfl
    rw [h, ih sp]
    rfl

/-- The configuration of the failing run for claim C4: no destination file,
the legal "dot" format. -/
def rbStdoutDot : ReportBuilder :=
  { output_file := none, output_format := "dot", modules := ["example"],
    scripts := [], distributions := [], excludes := [], paths := [],
    exclude_stdlib := false }

/-- Claim C4 (refuted — code bug): with no destination file configured,
`output_graph` does not write the graph to standard output; the call
`self.print_graph(sys.stdout, self.output_format, self.mg)` passes three
positional arguments to a method accepting one, so the run raises `TypeError`
for both legal formats instead of completing. -/
theorem output_graph_stdout_typeerror :
    output_graph rbStdoutDot { openError := none }
      = { stderr := [],
          outcome := Outcome.raised (PyError.typeError
            "print_graph() takes 2 positional arguments but 4 were given") }
    ∧ output_graph { rbStdoutDot with output_format := "html" } { openError := none }
      = { stderr := [],
          outcome := Outcome.raised (PyError.typeError
            "print_graph() takes 2 positional arguments but 4 were given") } := by
  constructor <;> rfl

/-- Claim C5: the ambient `sys.path` after `make_graph` returns equals its
value before the call, for every configuration and any population-failure
oracle; during the call the configured paths are prepended in order,
first-listed (highest-priority) path first. -/
theorem make_graph_sys_path (rb : ReportBuilder) (failAfter : Option Nat)
    (sp : List String) :
    (make_graph rb failAfter sp).1 = sp
    ∧ (make_graph_body rb failAfter sp).1 = rb.paths ++ sp := by
  refine ⟨rfl, ?_⟩
  show insertLoop rb.paths sp = rb.paths ++ sp
  exact insertLoop_eq rb.paths sp

/-- Claim C6: when opening or writing the destination file fails, the error
description is printed to the error stream exactly once and the run
terminates with exit status 1 — no retry, no unhandled exception — for every
configuration. -/
theorem output_graph_write_failure (rb : ReportBuilder) (path msg : String) :
    output_graph { rb with output_file := some path } { openError := some msg }
      = { stderr := [msg], outcome := Outcome.exited 1 } := rfl

/-- Claim C7: `print_graph` invokes exactly one serializer — the HTML one iff
the format tag is "html", the DOT one iff it is "dot" — and any other tag
fails the `AssertionError` branch, under which neither serializer runs.
Reached through `output_graph` with a writable destination, this assertion
failure propagates as a raised error with nothing on the error stream, unlike
the I/O-failure path which exits with status 1 after an error-stream message.
-/
theorem print_graph_dispatch (rb : ReportBuilder) (path : String) :
    (print_graph rb = Except.error PyError.assertionError
      ↔ (rb.output_format ≠ "dot" ∧ rb.output_format ≠ "html"))
    ∧ (print_graph rb = Except.ok [SerializerCall.toHtml]
        ↔ rb.output_format = "html")
    ∧ (print_graph rb = Except.ok [SerializerCall.toDot]
        ↔ rb.output_format = "dot")
    ∧ ((output_graph { rb with output_file := some path } { openError := none }).outcome
          = Outcome.raised PyError.assertionError
        ↔ (rb.output_format ≠ "dot" ∧ rb.output_format ≠ "html"))
    ∧ (output_graph { rb with output_file := some path } { openError := none }).stderr = []
    ∧ Outcome.raised PyError.assertionError ≠ Outcome.exited 1 := by
  have hform : ({ rb with output_file := some path } : ReportBuilder).output_format
      = rb.output_format := rfl
  refine ⟨?_, ?_, ?_, ?_, ?_, by decide⟩ <;>
    by_cases h1 : rb.output_format = "html" <;>
      by_cases h2 : rb.output_format = "dot" <;>
        simp_all [print_graph, output_graph]

/-- Predicate: is this graph operation an `add_excludes` registration? -/
def isAddExcludes : GraphOp → Bool
  | .addExcludes _ => true
  | _ => false

/-- Claim C8: with the stdlib-exclusion option enabled, construction appends
the stdlib module-name set to the exclusion list exactly once; with it
disabled the exclusion list is exactly the configured excludes. `make_graph`
registers the exclusions on the fresh graph as its very first operation — the
plan contains exactly one excludes registration, at its head, and the
operations actually performed are a prefix of the plan however far population
proceeds. -/
theorem reportbuilder_excludes
    (output_file : Option String) (output_format : String)
    (modules scripts distributions excludes paths : Option (List String))
    (stdlibNames : List String) (rb : ReportBuilder) (failAfter : Option Nat)
    (sp : List String) :
    (ReportBuilder.init output_file output_format modules scripts distributions
        excludes paths true stdlibNames).excludes = excludes.getD [] ++ stdlibNames
    ∧ (ReportBuilder.init output_file output_format modules scripts distributions
        excludes paths false stdlibNames).excludes = excludes.getD []
    ∧ plannedOps rb
        = GraphOp.addExcludes rb.excludes ::
            (rb.modules.map GraphOp.addModule ++ rb.scripts.map GraphOp.addScript
              ++ rb.distributions.map GraphOp.addDistribution)
    ∧ (plannedOps rb).countP (fun op => isAddExcludes op) = 1
    ∧ (make_graph rb failAfter sp).2.1 <+: plannedOps rb := by
  have htail : ∀ op ∈ rb.modules.map GraphOp.addModule
      ++ rb.scripts.map GraphOp.addScript
      ++ rb.distributions.map GraphOp.addDistribution, isAddExcludes op = false := by
    intro op hop
    rcases List.mem_append.1 hop with h | h
    · rcases List.mem_append.1 h with h | h
      · rcases List.mem_map.1 h with ⟨a, -, rfl⟩; rfl
      · rcases List.mem_map.1 h with ⟨a, -, rfl⟩; rfl
    · rcases List.mem_map.1 h with ⟨a, -, rfl⟩; rfl
  refine ⟨by simp [ReportBuilder.init], by simp [ReportBuilder.init], rfl, ?_, ?_⟩
  · unfold plannedOps
    rw [List.countP_cons]
    have hzero : (rb.modules.map GraphOp.addModule ++ rb.scripts.map GraphOp.addScript
        ++ rb.distributions.map GraphOp.addDistribution).countP
          (fun op => isAddExcludes op) = 0 := by
      rw [List.countP_eq_zero]
      intro op hop
      simp [htail op hop]
    simp [hzero, isAddExcludes]
  · show (runOps (plannedOps rb) failAfter).1 <+: plannedOps rb
    unfold runOps
    cases failAfter with
    | none => exact List.prefix_refl _
    | some k =>
      show (if k < (plannedOps rb).length
          then ((plannedOps rb).take k, some (PyError.osError "population failed"))
          else (plannedOps rb, none)).1 <+: plannedOps rb
      by_cases h : k < (plannedOps rb).length
      · rw [if_pos h]
        exact List.take_prefix k _
      · rw [if_neg h]

/-- Claim C9: `render_graph` fails the legality assertion for any requested
format outside the fixed legal set; for a legal format, the layout engine is
invoked with the command line built as layout name, `-T` plus format, `-o`
plus render path, input path — iff the configured output format is "dot" and a
truthy (non-absent, non-empty) destination file was configured — and
otherwise the call does nothing. -/
theorem render_graph_legal_formats (rb : ReportBuilder) (layout fmt : String) :
    (fmt ∉ legal_render_formats →
      render_graph rb layout fmt = Except.error PyError.assertionError)
    ∧ (fmt ∈ legal_render_formats → ∀ f, rb.output_file = some f →
        rb.output_format = "dot" → f ≠ "" →
        render_graph rb layout fmt = Except.ok (some (layout ++ " -T" ++ fmt
          ++ " -o " ++ (splitext_root f ++ "." ++ fmt) ++ " " ++ f)))
    ∧ (fmt ∈ legal_render_formats →
        (rb.output_format ≠ "dot" ∨ rb.output_file = none ∨ rb.output_file = some "") →
        render_graph rb layout fmt = Except.ok none) := by
  refine ⟨?_, ?_, ?_⟩
  · intro h
    simp [render_graph, h]
  · intro h f hf hfmt hne
    simp [render_graph, h, hf, hfmt, hne]
  · intro h hcase
    rcases hcase with hfmt | hnone | hempty
    · cases hof : rb.output_file with
      | none => simp [render_graph, h, hof]
      | some f => simp [render_graph, h, hof, hfmt]
    · simp [render_graph, h, hnone]
    · simp [render_graph, h, hempty]

/-- Concrete configuration used to witness claim C9. -/
def rbRender : ReportBuilder :=
  { output_file := some "out.dot", output_format := "dot", modules := [],
    scripts := [], distributions := [], excludes := [], paths := [],
    exclude_stdlib := false }

theorem render_graph_legal_formats_witness :
    render_graph rbRender "dot" "bmp" = Except.error PyError.assertionError
    ∧ render_graph rbRender "dot" "pdf"
        = Except.ok (some ("dot" ++ " -T" ++ "pdf" ++ " -o "
            ++ (splitext_root "out.dot" ++ "." ++ "pdf") ++ " " ++ "out.dot"))
    ∧ render_graph { rbRender with output_format := "html" } "dot" "pdf"
        = Except.ok none :=
  ⟨(render_graph_legal_formats rbRender "dot" "bmp").1 (by decide),
   (render_graph_legal_formats rbRender "dot" "pdf").2.1 (by decide) "out.dot"
     rfl rfl (by decide),
   (render_graph_legal_formats { rbRender with output_format := "html" } "dot" "pdf").2.2
     (by decide) (Or.inl (by decide))⟩

/-- Concrete node of an unregistered kind, a root of its graph, used to
witness claim C1. -/
def nUnregistered : BaseNode :=
  { identifier := "x", kindName := "FancyModule", distribution := none }

/-- Concrete graph whose only root is `nUnregistered`. -/
def mgUnregistered : ModuleGraph :=
  { roots := [nUnregistered], iter_graph := [GraphEntry.node nUnregistered] }

theorem format_node_matches_spec_witness :
    format_node nUnregistered mgUnregistered
      = [("penwidth", AttrValue.int 2), ("root", AttrValue.str "true")] :=
  (format_node_matches_spec nUnregistered mgUnregistered).2.2 (by decide)
